import Mathlib

/-!
Verification development for the X-Agent Gateway (XAG) engine: a shallow
embedding of its identifier resolver, escrow/settlement manager, history
scans (logs, intents, negotiations) and reputation scorer, together with
theorems settling the specified behavioral properties.

Modelling conventions:
- JavaScript values that may be undefined become Option; JavaScript
  truthiness of strings (empty string is falsy) and of numbers (0 is
  falsy) is made explicit through the js* helpers below.
- JavaScript numbers are modelled as rationals where fractional values
  occur (XRP balances, amounts) and as Nat where they are counters or
  millisecond timestamps.
- The ledger client is a pure environment recording the responses of its
  queries; submitAndWait is modelled as assigning the hash hashFor k to
  the k-th transaction submitted during an operation (a validated result,
  which for xrpl.js includes tec outcomes carried in the metadata).
- Each effectful operation returns its result together with the list of
  transactions it submitted, in submission order.
- Thrown errors are mapped to the tagged failure kinds of the error
  taxonomy; the mapping of each throw site is noted at its definition.
-/

/-- Tagged failure kinds of the engine. Each constructor corresponds to a
family of throw sites in the source: InvalidIdentifier to the throw in
DIDManager.resolveDID, WalletNotFound to the wallet-lookup wrappers in
XAG, InsufficientFunds to the balance-check throws in XAG.initiateTrade,
EscrowLookupFailed to the owner/sequence extraction throw, EscrowNotFound
to the open-escrow match throw of the legacy fulfillTrade,
SettlementRejected to the RLUSD verification throw, and ClientError to
errors raised by the ledger client itself (for example a tx lookup on an
unknown hash). -/
inductive XagError where
  | InvalidIdentifier (id : String)
  | WalletNotFound
  | InsufficientFunds
  | EscrowLookupFailed
  | EscrowNotFound
  | SettlementRejected
  | ClientError
deriving DecidableEq, Repr

/-- JavaScript truthiness of a possibly-undefined string: undefined and
the empty string are falsy. -/
def jsTruthyStr : Option String → Bool
  | some s => s ≠ ""
  | none => false

/-- JavaScript a || b for possibly-undefined strings. -/
def jsOrStr (a b : Option String) : Option String :=
  if jsTruthyStr a then a else b

/-- JavaScript truthiness of a possibly-undefined number: undefined and 0
are falsy. -/
def jsTruthyNat : Option Nat → Bool
  | some n => n ≠ 0
  | none => false

/-- JavaScript a || b for possibly-undefined numbers. -/
def jsOrNat (a b : Option Nat) : Option Nat :=
  if jsTruthyNat a then a else b

/-- JavaScript spread guard (cond && { field: cond }) for an optional
string field: the field is included only when the value is truthy. -/
def jsOptStr (o : Option String) : Option String :=
  if jsTruthyStr o then o else none

/-- JavaScript spread guard for an optional numeric field. -/
def jsOptNat (o : Option Nat) : Option Nat :=
  if jsTruthyNat o then o else none

/-- Recognized DID scheme of the resolver, the literal did:xrpl:1: of
DIDManager. -/
def didScheme : String := "did:xrpl:1:"

/-- Embeds DIDManager.resolveDID. The source tests
did.startsWith("did:xrpl:1:"), modelled as the character-level prefix
test on the underlying data, and strips the scheme with
did.replace("did:xrpl:1:", ""): String.prototype.replace with a string
pattern removes only the first occurrence, which under the startsWith
guard is the leading scheme, hence the drop of its length. A string
starting with r is returned unchanged; anything else raises the
InvalidIdentifier failure. -/
def DIDManager.resolveDID (did : String) : Except XagError String :=
  if didScheme.data.isPrefixOf did.data then
    Except.ok (did.drop didScheme.length)
  else if "r".data.isPrefixOf did.data then
    Except.ok did
  else
    Except.error (XagError.InvalidIdentifier did)

/-- Embeds DIDManager.createDID, the pure inverse construction
did:xrpl:1: ++ address; it always succeeds. -/
def DIDManager.createDID (address : String) : String :=
  didScheme ++ address

/-- Canonical DID form of a valid identifier, written from the words of
the specification for the round-trip claim: a DID-prefixed identifier is
already canonical, a raw account reference is wrapped in the scheme. -/
def specCanonicalDID (id : String) : String :=
  if didScheme.data.isPrefixOf id.data then id else didScheme ++ id

/-- C5: for every valid identifier, toIdentifier (createDID) applied to
the resolved account reference returns the canonical DID form of the
identifier, and resolveDID fails with InvalidIdentifier exactly on the
strings matching neither the DID form nor the raw account form
(createDID itself is a total function, so it always succeeds). -/
theorem resolveDID_roundtrip (id a : String) :
    (DIDManager.resolveDID id = Except.ok a →
       DIDManager.createDID a = specCanonicalDID id) ∧
    (DIDManager.resolveDID id = Except.error (XagError.InvalidIdentifier id) ↔
       (¬ didScheme.data.isPrefixOf id.data ∧ ¬ "r".data.isPrefixOf id.data)) := by
  constructor
  · intro h
    unfold DIDManager.resolveDID at h
    by_cases hp : didScheme.data.isPrefixOf id.data
    · rw [if_pos hp] at h
      obtain rfl : a = id.drop didScheme.length := by
        cases h; rfl
      unfold DIDManager.createDID specCanonicalDID
      rw [if_pos hp]
      obtain ⟨t, ht⟩ := List.isPrefixOf_iff_prefix.mp hp
      apply String.ext
      rw [String.data_append, String.data_drop, ← ht, String.length]
      rw [List.drop_left]
    · rw [if_neg hp] at h
      by_cases hr : "r".data.isPrefixOf id.data
      · rw [if_pos hr] at h
        obtain rfl : a = id := by cases h; rfl
        unfold DIDManager.createDID specCanonicalDID
        rw [if_neg hp]
      · rw [if_neg hr] at h
        cases h
  · constructor
    · intro h
      unfold DIDManager.resolveDID at h
      by_cases hp : didScheme.data.isPrefixOf id.data
      · rw [if_pos hp] at h; cases h
      · rw [if_neg hp] at h
        by_cases hr : "r".data.isPrefixOf id.data
        · rw [if_pos hr] at h; cases h
        · exact ⟨hp, hr⟩
    · intro ⟨hp, hr⟩
      unfold DIDManager.resolveDID
      rw [if_neg hp, if_neg hr]

/-- C5 witness: the round-trip at the concrete identifier
did:xrpl:1:rAgentOne. -/
theorem resolveDID_roundtrip_witness :
    DIDManager.createDID "rAgentOne" = specCanonicalDID "did:xrpl:1:rAgentOne" :=
  (resolveDID_roundtrip "did:xrpl:1:rAgentOne" "rAgentOne").1 (by rfl)

/-- Settlement asset selector, the token field values XRP and RLUSD. -/
inductive Token where
  | XRP
  | RLUSD
deriving DecidableEq, Repr

/-- Rendering of a Token as the string literal used by the source. -/
def Token.str : Token → String
  | Token.XRP => "XRP"
  | Token.RLUSD => "RLUSD"

/-- Embeds xrpToDrops of xrpl.js: one XRP is 1000000 drops. -/
def xrpToDrops (xrp : ℚ) : ℚ := xrp * 1000000

/-- Transactions built and submitted by the engine; each constructor
mirrors the fields of the corresponding xrpl.js transaction object as
the source fills them (memos are kept as their original text). -/
inductive SubmittedTx where
  | escrowCreate (account : String) (amountDrops : ℚ) (destination : String)
      (condition : Option String) (finishAfter : Option Nat)
      (cancelAfter : Option Nat) (memos : List String)
  | escrowFinish (account : String) (owner : String) (offerSequence : Nat)
      (fulfillment : Option String) (condition : Option String)
  | trustSet (account : String) (currency : String) (issuer : String)
      (limit : String)
  | rlusdPayment (account : String) (destination : String) (value : ℚ)
      (memos : List String)
deriving DecidableEq, Repr

/-- Fields of a tx-command response that the settlement manager reads.
The source reads both the tx_json variant and the top-level variant of
the Account and Sequence fields, so both are modelled. -/
structure TxInfo where
  txJsonAccount : Option String := none
  topAccount : Option String := none
  txJsonSequence : Option Nat := none
  topSequence : Option Nat := none
  metaTransactionResult : Option String := none
deriving DecidableEq, Repr

/-- Escrow ledger object as returned by the account_objects query, with
the fields the source reads: the back-reference to the creating
transaction and the locked amount. -/
structure EscrowObject where
  PreviousTxnID : String
  AmountDrops : Option ℚ := none
deriving DecidableEq, Repr

/-- Pure model of the ledger client responses consumed by the settlement
manager: the tx lookup, the open escrow objects of an account, account
balances, trust lines, and the submission results. hashFor k is the hash
submitAndWait reports for the k-th transaction submitted during the
operation; submitResultSequence and preparedSequence model the Sequence
field of the submit result and of the autofilled transaction. -/
structure ClientEnv where
  txLookup : String → Option TxInfo := fun _ => none
  accountEscrows : String → List EscrowObject := fun _ => []
  balanceDrops : String → Nat := fun _ => 0
  rlusdBalance : String → ℚ := fun _ => 0
  hasTrustLine : String → Bool := fun _ => false
  hashFor : Nat → String := fun _ => ""
  submitResultSequence : Option Nat := none
  preparedSequence : Nat := 0

/-- Embeds EscrowManager.fulfillTrade (the modular escrow manager used by
the current XAG facade). RLUSD path: re-fetch the creation transaction
and require meta.TransactionResult to be tesSUCCESS, else throw (mapped
to SettlementRejected); on success return the same hash, submitting
nothing. XRP path: re-fetch the creation transaction, recover owner and
sequence through the JavaScript || fallbacks, throw (EscrowLookupFailed)
when either is falsy, then build and submit an EscrowFinish referencing
them. Note this variant performs no account_objects lookup of the open
escrows before submitting. -/
def EscrowManager.fulfillTrade (env : ClientEnv) (escrowHash : String)
    (sellerAddress : String) (token : Token) (fulfillment : Option String)
    (condition : Option String) :
    Except XagError String × List SubmittedTx :=
  match token with
  | Token.RLUSD =>
    match env.txLookup escrowHash with
    | none => (Except.error XagError.ClientError, [])
    | some info =>
      if info.metaTransactionResult = some "tesSUCCESS" then
        (Except.ok escrowHash, [])
      else
        (Except.error XagError.SettlementRejected, [])
  | Token.XRP =>
    match env.txLookup escrowHash with
    | none => (Except.error XagError.ClientError, [])
    | some info =>
      let owner := jsOrStr info.txJsonAccount info.topAccount
      let sequence := jsOrNat info.txJsonSequence info.topSequence
      if jsTruthyStr owner = false ∨ jsTruthyNat sequence = false then
        (Except.error XagError.EscrowLookupFailed, [])
      else
        (Except.ok (env.hashFor 0),
         [SubmittedTx.escrowFinish sellerAddress (owner.getD "")
            (sequence.getD 0) fulfillment condition])

/-- Embeds fulfillTrade of the legacy single-file XAG class (the earlier
variant of the engine kept in the repository). After recovering owner and
sequence it additionally queries the owners open escrow objects and
matches the one whose PreviousTxnID equals the creation hash, throwing
(mapped to EscrowNotFound) when there is no match, and only then submits
the EscrowFinish (the source returns the whole submit result, modelled
here by its hash). -/
def XAGLegacy.fulfillTrade (env : ClientEnv) (escrowHash : String)
    (sellerAddress : String) (fulfillment : Option String)
    (condition : Option String) :
    Except XagError String × List SubmittedTx :=
  match env.txLookup escrowHash with
  | none => (Except.error XagError.ClientError, [])
  | some info =>
    let owner := jsOrStr info.txJsonAccount info.topAccount
    let sequence := jsOrNat info.txJsonSequence info.topSequence
    if jsTruthyStr owner = false ∨ jsTruthyNat sequence = false then
      (Except.error XagError.EscrowLookupFailed, [])
    else
      match (env.accountEscrows (owner.getD "")).find?
          (fun obj => obj.PreviousTxnID == escrowHash) with
      | none => (Except.error XagError.EscrowNotFound, [])
      | some _ =>
        (Except.ok (env.hashFor 0),
         [SubmittedTx.escrowFinish sellerAddress (owner.getD "")
            (sequence.getD 0) fulfillment condition])

/-- Concrete client state after the escrow created by transaction HCREATE
has already been finished: the creation transaction is still retrievable,
but the owners open escrow objects no longer contain it. -/
def envConsumedEscrow : ClientEnv :=
  { txLookup := fun h =>
      if h == "HCREATE" then
        some { txJsonAccount := some "rOwner", txJsonSequence := some 7 }
      else none,
    accountEscrows := fun _ => [],
    hashFor := fun _ => "HFINISH2" }

/-- C1 counterexample: calling the modular EscrowManager.fulfillTrade a
second time on a native escrow that is no longer among the owners open
escrow objects (already consumed by the first finish) does not fail with
EscrowNotFound: it silently succeeds, submitting a second EscrowFinish
and returning its hash. -/
theorem fulfillTrade_consumed_escrow_not_found_cex :
    (EscrowManager.fulfillTrade envConsumedEscrow "HCREATE" "rSeller"
        Token.XRP none none).1 = Except.ok "HFINISH2" ∧
    (EscrowManager.fulfillTrade envConsumedEscrow "HCREATE" "rSeller"
        Token.XRP none none).1 ≠ Except.error XagError.EscrowNotFound ∧
    (EscrowManager.fulfillTrade envConsumedEscrow "HCREATE" "rSeller"
        Token.XRP none none).2 =
      [SubmittedTx.escrowFinish "rSeller" "rOwner" 7 none none] :=
  ⟨rfl, fun h => Except.noConfusion h, rfl⟩

/-- C1 amended: only the legacy single-file XAG.fulfillTrade lists the
owners currently-open escrow objects and matches the one whose
PreviousTxnID equals the creation hash, failing with EscrowNotFound when
no such object exists (in particular on a second call, the escrow being
consumed) and submitting nothing in that case; the modular
EscrowManager.fulfillTrade used on the native path performs no such
lookup: whatever the open-escrow objects are, after recovering owner and
sequence it submits an EscrowFinish and returns its hash. -/
theorem fulfillTrade_native_lookup_amended (env : ClientEnv)
    (h seller : String) (info : TxInfo)
    (hlook : env.txLookup h = some info)
    (howner : jsTruthyStr (jsOrStr info.txJsonAccount info.topAccount) = true)
    (hseq : jsTruthyNat (jsOrNat info.txJsonSequence info.topSequence) = true) :
    ((env.accountEscrows ((jsOrStr info.txJsonAccount info.topAccount).getD "")).find?
        (fun obj => obj.PreviousTxnID == h) = none →
      XAGLegacy.fulfillTrade env h seller none none =
        (Except.error XagError.EscrowNotFound, [])) ∧
    EscrowManager.fulfillTrade env h seller Token.XRP none none =
      (Except.ok (env.hashFor 0),
       [SubmittedTx.escrowFinish seller
          ((jsOrStr info.txJsonAccount info.topAccount).getD "")
          ((jsOrNat info.txJsonSequence info.topSequence).getD 0) none none]) := by
  have hcond : ¬ (jsTruthyStr (jsOrStr info.txJsonAccount info.topAccount) = false ∨
      jsTruthyNat (jsOrNat info.txJsonSequence info.topSequence) = false) := by
    rw [howner, hseq]; simp
  constructor
  · intro hfind
    simp only [XAGLegacy.fulfillTrade, hlook]
    rw [if_neg hcond, hfind]
  · simp only [EscrowManager.fulfillTrade, hlook]
    rw [if_neg hcond]

/-- C1 witness: the amended statement applied to a concrete consumed
escrow, where the legacy variant fails with EscrowNotFound. -/
theorem fulfillTrade_native_lookup_amended_witness :
    XAGLegacy.fulfillTrade envConsumedEscrow "HCREATE" "rSeller" none none =
      (Except.error XagError.EscrowNotFound, []) :=
  (fulfillTrade_native_lookup_amended envConsumedEscrow "HCREATE" "rSeller"
      { txJsonAccount := some "rOwner", txJsonSequence := some 7 }
      rfl rfl rfl).1 rfl

/-- C4: on the issued-asset path, fulfillTrade re-fetches the creation
transaction by its hash and inspects the finalized status: when the
TransactionResult is not tesSUCCESS it fails with SettlementRejected,
otherwise it returns the same creation hash unchanged; in both cases it
submits no second transaction. -/
theorem fulfillTrade_rlusd_verification (env : ClientEnv)
    (h seller : String) (info : TxInfo)
    (hlook : env.txLookup h = some info) :
    (info.metaTransactionResult ≠ some "tesSUCCESS" →
      EscrowManager.fulfillTrade env h seller Token.RLUSD none none =
        (Except.error XagError.SettlementRejected, [])) ∧
    (info.metaTransactionResult = some "tesSUCCESS" →
      EscrowManager.fulfillTrade env h seller Token.RLUSD none none =
        (Except.ok h, [])) := by
  constructor
  · intro hne
    simp only [EscrowManager.fulfillTrade, hlook]
    rw [if_neg hne]
  · intro heq
    simp only [EscrowManager.fulfillTrade, hlook]
    rw [if_pos heq]

/-- Concrete client state holding a finalized successful RLUSD payment
HPAY and a rejected one HBAD. -/
def envRlusdPayments : ClientEnv :=
  { txLookup := fun h =>
      if h == "HPAY" then some { metaTransactionResult := some "tesSUCCESS" }
      else if h == "HBAD" then some { metaTransactionResult := some "tecPATH_DRY" }
      else none }

/-- C4 witness: the verification at the concrete finalized payment HPAY
returns the hash unchanged, and at the rejected payment HBAD fails with
SettlementRejected. -/
theorem fulfillTrade_rlusd_verification_witness :
    EscrowManager.fulfillTrade envRlusdPayments "HPAY" "rSeller"
        Token.RLUSD none none = (Except.ok "HPAY", []) ∧
    EscrowManager.fulfillTrade envRlusdPayments "HBAD" "rSeller"
        Token.RLUSD none none =
      (Except.error XagError.SettlementRejected, []) :=
  ⟨(fulfillTrade_rlusd_verification envRlusdPayments "HPAY" "rSeller"
      { metaTransactionResult := some "tesSUCCESS" } rfl).2 rfl,
   (fulfillTrade_rlusd_verification envRlusdPayments "HBAD" "rSeller"
      { metaTransactionResult := some "tecPATH_DRY" } rfl).1 (by simp)⟩

/-- Currency code of the settlement asset, from the types module. -/
def RLUSD_CURRENCY_CODE : String := "RLUSD"

/-- Issuer account of the settlement asset on the test network, from the
types module. -/
def RLUSD_ISSUER_TESTNET : String := "rN7n7otQDd6FczFgLdSqtcsAUxDkw6fzRH"

/-- Trade parameters, from the TradeConfig interface of the types module.
Amounts are modelled as rationals. -/
structure TradeConfig where
  buyer : String
  seller : String
  amount : ℚ
  token : Token
  condition : Option String := none
  finishAfter : Option Nat := none
  cancelAfter : Option Nat := none
  memo : Option String := none
deriving DecidableEq, Repr

/-- Trade outcome, from the TradeResult interface of the types module. -/
structure TradeResult where
  hash : String
  sequence : Nat
  amount : ℚ
  token : Token
  buyer : String
  seller : String
deriving DecidableEq, Repr

/-- Embeds RLUSDManager.createRLUSDPayment: when the sending account has
no RLUSD trust line one TrustSet is submitted first (with the default
limit 1000000), then the issued-currency Payment itself; the hash of the
Payment submission is returned. -/
def RLUSDManager.createRLUSDPayment (env : ClientEnv) (fromAddress : String)
    (toAddress : String) (amount : ℚ) (memo : Option String) :
    String × List SubmittedTx :=
  let pre : List SubmittedTx :=
    if env.hasTrustLine fromAddress then []
    else [SubmittedTx.trustSet fromAddress RLUSD_CURRENCY_CODE
            RLUSD_ISSUER_TESTNET "1000000"]
  let payTx := SubmittedTx.rlusdPayment fromAddress toAddress amount memo.toList
  (env.hashFor pre.length, pre ++ [payTx])

/-- Default trade memo built by EscrowManager.initiateTrade on the RLUSD
path when the caller supplies none. -/
def rlusdTradeMemoText (amount : ℚ) (buyerAddress sellerAddress : String) : String :=
  "XAG Trade: " ++ toString amount ++ " RLUSD from " ++ buyerAddress ++
    " to " ++ sellerAddress

/-- Embeds EscrowManager.initiateTrade. Both parties are resolved first
(an InvalidIdentifier failure propagates with nothing submitted). RLUSD
path: settlement degrades to an immediate payment through
createRLUSDPayment, and the result carries the payment hash with the
sentinel sequence 0. XRP path: one EscrowCreate is built (optional
fields guarded by JavaScript truthiness) and submitted, and the result
carries its hash and the sequence recovered from the submit result with
the prepared transaction as fallback. -/
def EscrowManager.initiateTrade (env : ClientEnv) (config : TradeConfig)
    (buyerWalletAddress : String) :
    Except XagError TradeResult × List SubmittedTx :=
  match DIDManager.resolveDID config.buyer with
  | Except.error e => (Except.error e, [])
  | Except.ok buyerAddress =>
  match DIDManager.resolveDID config.seller with
  | Except.error e => (Except.error e, [])
  | Except.ok sellerAddress =>
  match config.token with
  | Token.RLUSD =>
    let memo := (jsOrStr config.memo
      (some (rlusdTradeMemoText config.amount buyerAddress sellerAddress))).getD ""
    let payment := RLUSDManager.createRLUSDPayment env buyerWalletAddress
      sellerAddress config.amount (some memo)
    (Except.ok
      { hash := payment.1, sequence := 0, amount := config.amount,
        token := config.token, buyer := buyerAddress, seller := sellerAddress },
     payment.2)
  | Token.XRP =>
    let tx := SubmittedTx.escrowCreate buyerWalletAddress
      (xrpToDrops config.amount) sellerAddress
      (jsOptStr config.condition) (jsOptNat config.finishAfter)
      (jsOptNat config.cancelAfter) (jsOptStr config.memo).toList
    (Except.ok
      { hash := env.hashFor 0,
        sequence := (jsOrNat env.submitResultSequence
          (some env.preparedSequence)).getD 0,
        amount := config.amount, token := config.token,
        buyer := buyerAddress, seller := sellerAddress },
     [tx])

/-- Environment of the XAG facade: the ledger client plus the in-memory
wallet cache keyed by DID and the derivation of a wallet address from a
seed (Wallet.fromSeed). -/
structure XagEnv where
  client : ClientEnv
  agentWallets : String → Option String := fun _ => none
  walletFromSeed : String → String := fun _ => ""

/-- Embeds XAG.getWalletFromDID: resolve the identifier (a resolution
failure escapes to the caller), then return the stored wallet for the
identifier if present, else derive one from the supplied seed, else
throw (the callers wrap this as a wallet-not-found failure). -/
def XAG.getWalletFromDID (env : XagEnv) (didOrAddress : String)
    (seed : Option String) : Except XagError String :=
  match DIDManager.resolveDID didOrAddress with
  | Except.error e => Except.error e
  | Except.ok _ =>
    match env.agentWallets didOrAddress with
    | some w => Except.ok w
    | none =>
      match seed with
      | some s => Except.ok (env.walletFromSeed s)
      | none => Except.error XagError.WalletNotFound

/-- Default trade memo built by XAG.initiateTrade when the caller
supplies none. -/
def tradeMemoText (config : TradeConfig) : String :=
  "XAG Trade: " ++ toString config.amount ++ " " ++ config.token.str ++
    " from " ++ config.buyer ++ " to " ++ config.seller

/-- Embeds XAG.initiateTrade: obtain the buyer wallet (any failure there
is wrapped as a wallet-not-found error and nothing is submitted), resolve
the buyer, check the spendable balance (for XRP the account balance in
drops divided by 1000000 must be at least amount + 0.1, for RLUSD the
trust-line balance must be at least amount, else InsufficientFunds with
nothing submitted), fill in the default memo, and delegate to
EscrowManager.initiateTrade. -/
def XAG.initiateTrade (env : XagEnv) (config : TradeConfig)
    (buyerSeed : Option String) :
    Except XagError TradeResult × List SubmittedTx :=
  match XAG.getWalletFromDID env config.buyer buyerSeed with
  | Except.error _ => (Except.error XagError.WalletNotFound, [])
  | Except.ok buyerWallet =>
  match DIDManager.resolveDID config.buyer with
  | Except.error e => (Except.error e, [])
  | Except.ok buyerAddress =>
  let proceed := fun (_ : Unit) =>
    let memo := (jsOrStr config.memo (some (tradeMemoText config))).getD ""
    EscrowManager.initiateTrade env.client { config with memo := some memo }
      buyerWallet
  match config.token with
  | Token.XRP =>
    if (env.client.balanceDrops buyerAddress : ℚ) / 1000000 <
        config.amount + 1 / 10 then
      (Except.error XagError.InsufficientFunds, [])
    else proceed ()
  | Token.RLUSD =>
    if env.client.rlusdBalance buyerAddress < config.amount then
      (Except.error XagError.InsufficientFunds, [])
    else proceed ()

/-- C9: on the issued-asset path, EscrowManager.initiateTrade returns a
result of shape hash / sequence / amount / token / buyer / seller whose
sequence field is the sentinel 0 (no owner/sequence pair applies to a
direct payment) and whose hash field is the hash of the payment
submission created by createRLUSDPayment; the submitted transactions are
exactly those of that payment. -/
theorem initiateTrade_rlusd_sentinel_sequence (env : ClientEnv)
    (config : TradeConfig) (w ba sa : String)
    (htoken : config.token = Token.RLUSD)
    (hb : DIDManager.resolveDID config.buyer = Except.ok ba)
    (hs : DIDManager.resolveDID config.seller = Except.ok sa) :
    EscrowManager.initiateTrade env config w =
      (Except.ok
        { hash := (RLUSDManager.createRLUSDPayment env w sa config.amount
            (some ((jsOrStr config.memo
              (some (rlusdTradeMemoText config.amount ba sa))).getD ""))).1,
          sequence := 0, amount := config.amount, token := config.token,
          buyer := ba, seller := sa },
       (RLUSDManager.createRLUSDPayment env w sa config.amount
          (some ((jsOrStr config.memo
            (some (rlusdTradeMemoText config.amount ba sa))).getD ""))).2) := by
  simp only [EscrowManager.initiateTrade, hb, hs, htoken]

/-- Concrete client state for the issued-asset witness: the buyer already
holds a trust line and the payment submission is assigned hash HPAY1. -/
def envRlusdTrade : ClientEnv :=
  { hasTrustLine := fun _ => true,
    hashFor := fun _ => "HPAY1" }

/-- C9 witness: a concrete RLUSD trade of 25 units returns the payment
hash HPAY1 with sentinel sequence 0 and submits exactly one
issued-currency payment. -/
theorem initiateTrade_rlusd_sentinel_sequence_witness :
    EscrowManager.initiateTrade envRlusdTrade
        { buyer := "did:xrpl:1:rBuyer", seller := "rSeller", amount := 25,
          token := Token.RLUSD, memo := some "order-42" } "rBuyer" =
      (Except.ok
        { hash := "HPAY1", sequence := 0, amount := 25, token := Token.RLUSD,
          buyer := "rBuyer", seller := "rSeller" },
       [SubmittedTx.rlusdPayment "rBuyer" "rSeller" 25 ["order-42"]]) := by
  have h := initiateTrade_rlusd_sentinel_sequence envRlusdTrade
    { buyer := "did:xrpl:1:rBuyer", seller := "rSeller", amount := 25,
      token := Token.RLUSD, memo := some "order-42" }
    "rBuyer" "rBuyer" "rSeller" rfl (by rfl) (by rfl)
  rw [h]
  rfl

/-- C3: for a native-path trade of amount A (buyer wallet available and
both identifiers valid), when the buyer balance in XRP is strictly below
A plus the 0.1 fee reserve, XAG.initiateTrade fails with
InsufficientFunds and submits no transaction at all; when the balance is
at least A plus the reserve, exactly one EscrowCreate is submitted, its
locked amount is xrpToDrops A, that is A XRP expressed in drops, and the
operation succeeds. -/
theorem initiateTrade_native_balance_check (env : XagEnv)
    (config : TradeConfig) (seed : Option String) (w ba sa : String)
    (htoken : config.token = Token.XRP)
    (hw : XAG.getWalletFromDID env config.buyer seed = Except.ok w)
    (hb : DIDManager.resolveDID config.buyer = Except.ok ba)
    (hs : DIDManager.resolveDID config.seller = Except.ok sa) :
    ((env.client.balanceDrops ba : ℚ) / 1000000 < config.amount + 1 / 10 →
      XAG.initiateTrade env config seed =
        (Except.error XagError.InsufficientFunds, [])) ∧
    (config.amount + 1 / 10 ≤ (env.client.balanceDrops ba : ℚ) / 1000000 →
      (XAG.initiateTrade env config seed).2 =
        [SubmittedTx.escrowCreate w (xrpToDrops config.amount) sa
          (jsOptStr config.condition) (jsOptNat config.finishAfter)
          (jsOptNat config.cancelAfter)
          (jsOptStr (some ((jsOrStr config.memo
            (some (tradeMemoText config))).getD ""))).toList] ∧
      (XAG.initiateTrade env config seed).1 =
        Except.ok
          { hash := env.client.hashFor 0,
            sequence := (jsOrNat env.client.submitResultSequence
              (some env.client.preparedSequence)).getD 0,
            amount := config.amount, token := config.token,
            buyer := ba, seller := sa } ∧
      xrpToDrops config.amount = config.amount * 1000000) := by
  constructor
  · intro hlt
    simp only [XAG.initiateTrade, hw, hb, htoken]
    rw [if_pos hlt]
  · intro hge
    have hni : ¬ ((env.client.balanceDrops ba : ℚ) / 1000000 <
        config.amount + 1 / 10) := not_lt.mpr hge
    simp only [XAG.initiateTrade, hw, hb, htoken]
    rw [if_neg hni]
    simp only [EscrowManager.initiateTrade, hb, hs, htoken]
    exact ⟨trivial, trivial, rfl⟩

/-- Environment for the native-trade witness: the buyer account holds
20 XRP (20000000 drops), the wallet cache knows the buyer DID, and the
escrow submission is assigned hash HESC1. -/
def envNativeTrade : XagEnv :=
  { client :=
      { balanceDrops := fun _ => 20000000,
        hashFor := fun _ => "HESC1",
        preparedSequence := 42 },
    agentWallets := fun d =>
      if d == "did:xrpl:1:rBuyer" then some "rBuyer" else none }

/-- Native trade of 10 XRP used by the witness. -/
def nativeTradeCfg : TradeConfig :=
  { buyer := "did:xrpl:1:rBuyer", seller := "rSeller", amount := 10,
    token := Token.XRP }

/-- C3 witness: with 20 XRP available and a 10 XRP trade (so balance is
at least amount plus the 0.1 reserve), exactly one EscrowCreate is
submitted and the operation succeeds. -/
theorem initiateTrade_native_balance_check_witness :
    (XAG.initiateTrade envNativeTrade nativeTradeCfg none).2 =
      [SubmittedTx.escrowCreate "rBuyer" (xrpToDrops nativeTradeCfg.amount)
        "rSeller" (jsOptStr nativeTradeCfg.condition)
        (jsOptNat nativeTradeCfg.finishAfter)
        (jsOptNat nativeTradeCfg.cancelAfter)
        (jsOptStr (some ((jsOrStr nativeTradeCfg.memo
          (some (tradeMemoText nativeTradeCfg))).getD ""))).toList] ∧
    (XAG.initiateTrade envNativeTrade nativeTradeCfg none).1 =
      Except.ok
        { hash := envNativeTrade.client.hashFor 0,
          sequence := (jsOrNat envNativeTrade.client.submitResultSequence
            (some envNativeTrade.client.preparedSequence)).getD 0,
          amount := nativeTradeCfg.amount, token := nativeTradeCfg.token,
          buyer := "rBuyer", seller := "rSeller" } ∧
    xrpToDrops nativeTradeCfg.amount = nativeTradeCfg.amount * 1000000 :=
  (initiateTrade_native_balance_check envNativeTrade nativeTradeCfg none
      "rBuyer" "rBuyer" "rSeller" rfl rfl rfl rfl).2
    (show (10 : ℚ) + 1 / 10 ≤ ((20000000 : Nat) : ℚ) / 1000000 by norm_num)

/-- Amount field of a raw history transaction: either a drops string or
an issued-currency object (the only case whose typeof is object). -/
inductive TxAmount where
  | str (s : String)
  | obj (currency : String) (issuer : String) (value : String)
deriving DecidableEq, Repr

/-- JavaScript truthiness of a possibly-undefined Amount: undefined and
the empty drops string are falsy, objects are always truthy. -/
def jsTruthyAmount : Option TxAmount → Bool
  | some (TxAmount.str s) => s ≠ ""
  | some (TxAmount.obj _ _ _) => true
  | none => false

/-- JavaScript a || b for possibly-undefined Amount fields. -/
def jsOrAmount (a b : Option TxAmount) : Option TxAmount :=
  if jsTruthyAmount a then a else b

/-- Raw history transaction as the reputation scorer reads it: the
transaction type and Amount through both the tx and tx_json carriers,
the finalized TransactionResult from the metadata, and whether the
metadata has a delivered_amount field. -/
structure RepTx where
  txType : Option String := none
  txJsonType : Option String := none
  metaTransactionResult : Option String := none
  deliveredAmountDefined : Bool := false
  txAmount : Option TxAmount := none
  txJsonAmount : Option TxAmount := none
deriving DecidableEq, Repr

/-- Transaction type read by the scorer,
tx.tx?.TransactionType || tx.tx_json?.TransactionType. -/
def repTxType (t : RepTx) : Option String :=
  jsOrStr t.txType t.txJsonType

/-- Amount read by the scorer, tx.tx?.Amount || tx.tx_json?.Amount. -/
def repAmount (t : RepTx) : Option TxAmount :=
  jsOrAmount t.txAmount t.txJsonAmount

/-- Value of the JavaScript expression
(tx.meta?.TransactionResult || tx.meta?.delivered_amount !== undefined)
as the scorer computes it: the result string when present and truthy,
otherwise the boolean of the delivered_amount probe. The comparison
operator binds tighter than ||, and the right operand is a boolean, so
the whole expression is never the JavaScript undefined, whence the outer
some. -/
def repResultVal (t : RepTx) : Option (String ⊕ Bool) :=
  match t.metaTransactionResult with
  | some s =>
    if s = "" then some (Sum.inr t.deliveredAmountDefined)
    else some (Sum.inl s)
  | none => some (Sum.inr t.deliveredAmountDefined)

/-- Embeds the success check of the scorer,
(result === 'tesSUCCESS' || result !== undefined). -/
def repSuccessCheck (t : RepTx) : Bool :=
  decide (repResultVal t = some (Sum.inl "tesSUCCESS")) ||
    decide (repResultVal t ≠ none)

/-- Embeds the RLUSD test of the payment filter,
(typeof amount === 'object' && amount?.currency === 'RLUSD'). -/
def repIsRLUSD (a : Option TxAmount) : Bool :=
  match a with
  | some (TxAmount.obj currency _ _) => currency = "RLUSD"
  | _ => false

/-- Reputation outcome, from the ReputationResult interface of the types
module. -/
structure ReputationResult where
  did : String
  address : String
  score : Nat
  successfulTrades : Nat
  escrowCreates : Nat
  escrowFinishes : Nat
  payments : Nat
deriving DecidableEq, Repr

/-- Embeds ReputationService.getReputation: resolve the DID, request the
100 most-recent transactions of the account, count the EscrowFinish,
EscrowCreate and RLUSD-denominated Payment transactions passing the
success check, and report the three counts, their sum, and the sum times
the fixed per-event weight 10. -/
def ReputationService.getReputation (accountTx : String → Nat → List RepTx)
    (did : String) : Except XagError ReputationResult :=
  match DIDManager.resolveDID did with
  | Except.error e => Except.error e
  | Except.ok address =>
    let allTransactions := accountTx address 100
    let successfulFinishes := (allTransactions.filter (fun t =>
      repTxType t == some "EscrowFinish" && repSuccessCheck t)).length
    let successfulCreates := (allTransactions.filter (fun t =>
      repTxType t == some "EscrowCreate" && repSuccessCheck t)).length
    let successfulPayments := (allTransactions.filter (fun t =>
      repTxType t == some "Payment" && repSuccessCheck t &&
        repIsRLUSD (repAmount t))).length
    let totalSuccessful := successfulFinishes + successfulCreates +
      successfulPayments
    Except.ok
      { did := did, address := address,
        score := totalSuccessful * 10,
        successfulTrades := totalSuccessful,
        escrowCreates := successfulCreates,
        escrowFinishes := successfulFinishes,
        payments := successfulPayments }

/-- History window exposing the reputation bug: a single EscrowCreate
whose finalized outcome is the failure code tecUNFUNDED, with no
delivered amount. -/
def repWindowWithFailedCreate : String → Nat → List RepTx :=
  fun _ _ =>
    [{ txType := some "EscrowCreate",
       metaTransactionResult := some "tecUNFUNDED" }]

/-- C2: the success check of the scorer is vacuous and the code counts
transactions regardless of their finalized outcome, contradicting the
claim and the comments of the source itself (Count successful ...
transactions). The expression
(tx.meta?.TransactionResult || tx.meta?.delivered_amount !== undefined)
is a string or a boolean, never undefined, so the disjunct
(result !== undefined) always holds: the check is constantly true, and a
window holding a single EscrowCreate finalized as tecUNFUNDED is scored
escrowCreates = 1, successfulTrades = 1, score = 10, where the claim
requires all counts to be 0. -/
theorem getReputation_counts_failed_create :
    (∀ t : RepTx, repSuccessCheck t = true) ∧
    ReputationService.getReputation repWindowWithFailedCreate "rBuyer" =
      Except.ok
        { did := "rBuyer", address := "rBuyer", score := 10,
          successfulTrades := 1, escrowCreates := 1, escrowFinishes := 0,
          payments := 0 } := by
  constructor
  · intro t
    unfold repSuccessCheck repResultVal
    cases t.metaTransactionResult with
    | none => simp
    | some s =>
      by_cases hs : s = "" <;> simp [hs]
  · rfl

/-- Decoded log payload, the JSON object written by XAG.log: message,
level, an embedded timestamp (modelled in milliseconds; absent or falsy
values fall back to the scan time) and the emitting agent. -/
structure LogData where
  message : String
  level : String
  timestamp : Option Nat := none
  agent : String := ""
deriving DecidableEq, Repr

/-- Intent record as searchIntents actually handles it: a parsed JSON
object read through the Intent interface of the types module. TypeScript
interfaces are erased at runtime and the source casts JSON.parse output
with no shape check, so every field may be absent; the envelopes the
engine itself broadcasts carry all of them (terms are kept abstract as
an optional rendering). -/
structure Intent where
  agentDID : Option String := none
  type : Option String := none
  category : Option String := none
  description : Option String := none
  terms : Option String := none
  timestamp : Option Nat := none
  txHash : Option String := none
  status : Option String := none
deriving DecidableEq, Repr

/-- One step of a negotiation history, from the Negotiation interface.
The source field named from is spelled sender here, from being a
reserved word. -/
structure NegotiationStep where
  step : Nat
  sender : String
  action : String
  terms : String
  timestamp : Nat
  txHash : String
deriving DecidableEq, Repr

/-- Current offer of a negotiation, from the Negotiation interface (the
source fields from and to are spelled sender and receiver). -/
structure NegotiationOffer where
  sender : String
  receiver : String
  terms : String
  timestamp : Nat
deriving DecidableEq, Repr

/-- Negotiation snapshot, from the Negotiation interface of the types
module: the full state re-broadcast on every step. -/
structure Negotiation where
  negotiationId : String
  participants : List String
  status : String
  currentOffer : NegotiationOffer
  history : List NegotiationStep
deriving DecidableEq, Repr

/-- Decoded content of a MemoData annotation field. The hex-plus-JSON
codec of the source is abstracted: a constructor records the JSON shape
the bytes decode to. malformed stands for data whose hex decoding or
JSON.parse raises (every scan catches this and skips the record);
otherJson stands for well-formed JSON of a foreign application,
carrying none of the fields any scan reads. -/
inductive MemoPayload where
  | logJson (l : LogData)
  | intentJson (i : Intent)
  | negotiationJson (n : Negotiation)
  | otherJson
  | malformed
deriving DecidableEq, Repr

/-- Embeds the unchecked cast JSON.parse(decoded) as Intent of
searchIntents: no shape validation happens, any well-formed JSON is read
through the Intent interface, absent fields being undefined. Each
modelled JSON shape keeps exactly the fields it shares with that
interface: a log entry contributes its timestamp, a negotiation
snapshot its status, an intent envelope everything, and foreign JSON
(which by the otherJson convention carries none of the read fields)
reads as the empty object. malformed raises inside JSON.parse, which
the scan catches, whence none. -/
def MemoPayload.asIntent : MemoPayload → Option Intent
  | MemoPayload.logJson l => some { timestamp := l.timestamp }
  | MemoPayload.intentJson i => some i
  | MemoPayload.negotiationJson n => some { status := some n.status }
  | MemoPayload.otherJson => some {}
  | MemoPayload.malformed => none

/-- Memo object carried inside a transaction, with the fields the scans
read; MemoFormat is kept as its decoded text. -/
structure MemoObj where
  MemoData : Option MemoPayload := none
  MemoType : Option String := none
  MemoFormat : Option String := none
deriving DecidableEq, Repr

/-- Entry of a Memos array, wrapping the memo object. -/
structure RawMemo where
  Memo : Option MemoObj := none
deriving DecidableEq, Repr

/-- Transaction body as it appears under the tx or tx_json carrier of an
account_tx entry, with the fields the scans read. -/
structure TxObj where
  hash : Option String := none
  Memos : Option (List RawMemo) := none
deriving DecidableEq, Repr

/-- Raw account_tx entry: the body under its two possible carriers and
the top-level hash. -/
structure RawTx where
  tx : Option TxObj := none
  tx_json : Option TxObj := none
  hash : Option String := none
deriving DecidableEq, Repr

/-- Body selected by the scans, tx.tx || tx.tx_json || an empty object
(objects are truthy whenever present). -/
def RawTx.txData (t : RawTx) : TxObj :=
  match t.tx with
  | some o => o
  | none => t.tx_json.getD {}

/-- Memos of a body, txData.Memos || an empty array. -/
def TxObj.memosD (o : TxObj) : List RawMemo :=
  o.Memos.getD []

/-- Hash attached to a kept record, txData.hash || tx.hash || the empty
string. -/
def RawTx.entryHash (t : RawTx) : String :=
  (jsOrStr t.txData.hash t.hash).getD ""

/-- MemoData reached through the optional chain memo.Memo?.MemoData. -/
def memoDataOf (m : RawMemo) : Option MemoPayload :=
  m.Memo.bind (fun mo => mo.MemoData)

/-- MemoFormat reached through the optional chain memo.Memo?.MemoFormat. -/
def memoFormatOf (m : RawMemo) : Option String :=
  m.Memo.bind (fun mo => mo.MemoFormat)

/-- Embeds the per-memo body of XAG.getLogs: when the memo data is
present it is hex-decoded and JSON-parsed (a failure is caught and the
memo skipped), and the record is kept when it carries truthy message and
level fields. -/
def logEntryOfMemo (m : RawMemo) : Option LogData :=
  match memoDataOf m with
  | some (MemoPayload.logJson l) =>
    if l.message ≠ "" ∧ l.level ≠ "" then some l else none
  | _ => none

/-- Log entry returned by XAG.getLogs. -/
structure LogEntry where
  message : String
  level : String
  timestamp : Nat
  txHash : String
deriving DecidableEq, Repr

/-- Kept log records of a scanned window in scan order, before the final
sort: for each transaction and each of its memos, the decoded record
with the fallback timestamp and the attached transaction hash. -/
def XAG.collectLogs (now : Nat) (txs : List RawTx) : List LogEntry :=
  txs.flatMap (fun t =>
    (t.txData.memosD).filterMap (fun m =>
      (logEntryOfMemo m).map (fun l =>
        { message := l.message, level := l.level,
          timestamp := (jsOrNat l.timestamp (some now)).getD 0,
          txHash := t.entryHash })))

/-- Stable descending sort by a numeric key. Array.prototype.sort with
the comparator (a, b) => keyOf(b) - keyOf(a) is a stable sort placing
larger keys first; insertion sort under the relation keyOf b ≤ keyOf a
computes exactly that order. -/
def sortByKeyDesc {α : Type} (key : α → Nat) (l : List α) : List α :=
  List.insertionSort (fun a b => key b ≤ key a) l

/-- Embeds XAG.getLogs on a scanned window: collect the decoded log
records, then re-sort them by the embedded timestamp of each event,
descending. -/
def XAG.getLogs (now : Nat) (txs : List RawTx) : List LogEntry :=
  sortByKeyDesc (fun e => e.timestamp) (XAG.collectLogs now txs)

/-- Search criteria of IntentService.searchIntents. -/
structure IntentCriteria where
  type : Option String := none
  category : Option String := none
  agentDID : Option String := none
  limit : Option Nat := none
deriving DecidableEq, Repr

/-- Embeds the per-memo decoding of searchIntents: under a MemoFormat
tag decoding to xag:intent, the memo data is hex-decoded, JSON-parsed
and cast to Intent with no shape validation, so any well-formed JSON is
kept; a missing data field (Buffer.from of undefined raises) or a parse
failure is caught and the memo skipped. -/
def intentOfMemo (m : RawMemo) : Option Intent :=
  match m.Memo with
  | none => none
  | some mo =>
    if mo.MemoFormat = some "xag:intent" then
      match mo.MemoData with
      | none => none
      | some p => p.asIntent
    else none

/-- Embeds the filter clauses of searchIntents: a truthy type criterion
must equal the intent type, a truthy category criterion must equal the
intent category. -/
def intentPassesFilters (criteria : IntentCriteria) (i : Intent) : Bool :=
  !(jsTruthyStr criteria.type && decide (criteria.type ≠ i.type)) &&
  !(jsTruthyStr criteria.category && decide (criteria.category ≠ i.category))

/-- Embeds IntentService.searchIntents: the transaction scan runs only
under a truthy agentDID criterion (resolved first, with the default
window 100); every kept intent gets the transaction hash attached, and
the kept set is sorted by embedded timestamp, descending. Without an
agentDID criterion no scan runs and the (empty) collection is returned
after the sort. A record with no parseable timestamp compares through
NaN in the JavaScript comparator, an order the language leaves
unspecified; the model pins such records at key 0, and no theorem
depends on their position. -/
def IntentService.searchIntents (accountTx : String → Nat → List RawTx)
    (criteria : IntentCriteria) : Except XagError (List Intent) :=
  if jsTruthyStr criteria.agentDID then
    match DIDManager.resolveDID (criteria.agentDID.getD "") with
    | Except.error e => Except.error e
    | Except.ok address =>
      let transactions := accountTx address
        ((jsOrNat criteria.limit (some 100)).getD 0)
      let intents := transactions.flatMap (fun t =>
        (t.txData.memosD).filterMap (fun m =>
          match intentOfMemo m with
          | none => none
          | some i =>
            if intentPassesFilters criteria i then
              some { i with txHash := some t.entryHash }
            else none))
      Except.ok (sortByKeyDesc (fun i => i.timestamp.getD 0) intents)
  else
    Except.ok (sortByKeyDesc (fun i => i.timestamp.getD 0) ([] : List Intent))

/-- Embeds the per-memo decoding of getNegotiation: the memo is kept
only when its MemoFormat tag decodes to xag:negotiation and its data
parses as a negotiation snapshot; failures are caught and skipped. The
unchecked cast of the source is folded into the shape match here: a
parsed JSON of any other shape has no negotiationId field, so the
comparison against the queried id (a defined string) that immediately
follows rejects it; decoder and id check together keep exactly the
same records as the source. -/
def negotiationOfMemo (m : RawMemo) : Option Negotiation :=
  match m.Memo with
  | none => none
  | some mo =>
    if mo.MemoFormat = some "xag:negotiation" then
      match mo.MemoData with
      | some (MemoPayload.negotiationJson n) => some n
      | _ => none
    else none

/-- Embeds the in-place update of the last history step before a
snapshot is collected: history[history.length - 1].txHash = hash. On an
empty history the indexing raises in JavaScript and the surrounding
catch skips the record, whence the none. -/
def Negotiation.setLastTxHash (n : Negotiation) (h : String) :
    Option Negotiation :=
  match n.history.getLast? with
  | none => none
  | some last =>
    some { n with history := n.history.dropLast ++ [{ last with txHash := h }] }

/-- Embedded timestamp of a snapshot as the sort comparator of
getNegotiation reads it: the timestamp of the last history step. -/
def Negotiation.lastTimestamp (n : Negotiation) : Nat :=
  ((n.history.getLast?).map (fun s => s.timestamp)).getD 0

/-- Snapshots matching a negotiation id in a scanned window, in scan
order, each with the transaction hash written into its last history
step. -/
def NegotiationService.collectNegotiations (txs : List RawTx)
    (negotiationId : String) : List Negotiation :=
  txs.flatMap (fun t =>
    (t.txData.memosD).filterMap (fun m =>
      match negotiationOfMemo m with
      | none => none
      | some n =>
        if n.negotiationId = negotiationId then n.setLastTxHash t.entryHash
        else none))

/-- Embeds NegotiationService.getNegotiation: resolve the participant,
scan its 200 most-recent transactions, collect the snapshots matching
the negotiation id, sort them by their embedded timestamp descending and
return the first (the latest), or none when there is no match. -/
def NegotiationService.getNegotiation (accountTx : String → Nat → List RawTx)
    (negotiationId participantDID : String) :
    Except XagError (Option Negotiation) :=
  match DIDManager.resolveDID participantDID with
  | Except.error e => Except.error e
  | Except.ok address =>
    let transactions := accountTx address 200
    let negotiations :=
      NegotiationService.collectNegotiations transactions negotiationId
    match sortByKeyDesc Negotiation.lastTimestamp negotiations with
    | [] => Except.ok none
    | n :: _ => Except.ok (some n)

/-- Sorting permutes the kept set and nothing else. -/
theorem sortByKeyDesc_perm {α : Type} (key : α → Nat) (l : List α) :
    List.Perm (sortByKeyDesc key l) l :=
  List.perm_insertionSort _ l

/-- The sorted output is weakly descending in the key. -/
theorem sortByKeyDesc_sorted {α : Type} (key : α → Nat) (l : List α) :
    List.Sorted (fun a b => key b ≤ key a) (sortByKeyDesc key l) := by
  haveI : IsTotal α (fun a b => key b ≤ key a) :=
    ⟨fun a b => Nat.le_total (key b) (key a)⟩
  haveI : IsTrans α (fun a b => key b ≤ key a) :=
    ⟨fun _ _ _ h1 h2 => le_trans h2 h1⟩
  exact List.sorted_insertionSort _ l

/-- An element whose key strictly dominates every other member comes
first in the descending sort. -/
theorem sortByKeyDesc_head_of_max {α : Type} (key : α → Nat) (l : List α)
    (x : α) (hx : x ∈ l) (hmax : ∀ y ∈ l, y ≠ x → key y < key x) :
    (sortByKeyDesc key l).head? = some x := by
  have hperm := sortByKeyDesc_perm key l
  have hsorted := sortByKeyDesc_sorted key l
  cases hs : sortByKeyDesc key l with
  | nil =>
    rw [hs] at hperm
    exact absurd (hperm.symm.subset hx) (List.not_mem_nil x)
  | cons a t =>
    rw [hs] at hperm hsorted
    have ha : a ∈ l := hperm.subset (List.mem_cons_self a t)
    by_cases heq : a = x
    · simp [heq]
    · exfalso
      have hxin : x ∈ a :: t := hperm.mem_iff.mpr hx
      rcases List.mem_cons.mp hxin with h1 | h1
      · exact heq h1.symm
      · exact absurd (List.rel_of_sorted_cons hsorted x h1)
          (not_le.mpr (hmax a ha heq))

/-- A list permuting three entries with strictly increasing keys sorts,
descending, to exactly the reversed triple. -/
theorem sortByKeyDesc_three {α : Type} (key : α → Nat) (l : List α)
    (e1 e2 e3 : α) (hperm : List.Perm l [e1, e2, e3])
    (h12 : key e1 < key e2) (h23 : key e2 < key e3) :
    sortByKeyDesc key l = [e3, e2, e1] := by
  have hp : List.Perm (sortByKeyDesc key l) [e3, e2, e1] := by
    refine ((sortByKeyDesc_perm key l).trans hperm).trans ?_
    have := List.reverse_perm [e3, e2, e1]
    simpa using this
  have hnd : (sortByKeyDesc key l).Nodup := by
    refine hp.nodup_iff.mpr ?_
    have hne32 : e3 ≠ e2 := by
      intro h
      have hk := congrArg key h
      omega
    have hne31 : e3 ≠ e1 := by
      intro h
      have hk := congrArg key h
      omega
    have hne21 : e2 ≠ e1 := by
      intro h
      have hk := congrArg key h
      omega
    simp [hne32, hne31, hne21]
  have hkey : ∀ a ∈ sortByKeyDesc key l, ∀ b ∈ sortByKeyDesc key l,
      a ≠ b → key a ≠ key b := by
    intro a ha b hb hab
    have ha3 := hp.subset ha
    have hb3 := hp.subset hb
    simp only [List.mem_cons, List.not_mem_nil, or_false] at ha3 hb3
    rcases ha3 with rfl | rfl | rfl <;> rcases hb3 with rfl | rfl | rfl <;>
      first
        | exact absurd rfl hab
        | omega
  have hstrict : List.Sorted (fun a b => key b < key a) (sortByKeyDesc key l) := by
    have hcomb := (sortByKeyDesc_sorted key l).and hnd
    refine hcomb.imp_of_mem ?_
    intro a b ha hb hab
    exact lt_of_le_of_ne hab.1 (Ne.symm (hkey a ha b hb hab.2))
  have hstrictR : List.Sorted (fun a b => key b < key a) [e3, e2, e1] := by
    refine List.Pairwise.cons ?_ (List.Pairwise.cons ?_ (List.pairwise_singleton _ _))
    · intro b hb
      rcases List.mem_cons.mp hb with rfl | hb
      · exact h23
      · rcases List.mem_singleton.mp hb with rfl
        exact lt_trans h12 h23
    · intro b hb
      rcases List.mem_singleton.mp hb with rfl
      exact h12
  haveI : IsAntisymm α (fun a b => key b < key a) :=
    ⟨fun _ _ h1 h2 => absurd h2 (Nat.lt_asymm h1)⟩
  exact List.eq_of_perm_of_sorted hp hstrict hstrictR

/-- C6: when the matching snapshots of a scanned window contain a
snapshot whose embedded timestamp strictly dominates that of every other
match (the latest of strictly increasing timestamps), getNegotiation
returns exactly that snapshot as the current state, whatever raw order
the history scan produced; there is no field-level merging, the result
being one of the collected snapshots unchanged. -/
theorem getNegotiation_latest_snapshot_wins
    (accountTx : String → Nat → List RawTx) (nid pid address : String)
    (n : Negotiation)
    (haddr : DIDManager.resolveDID pid = Except.ok address)
    (hmem : n ∈ NegotiationService.collectNegotiations (accountTx address 200) nid)
    (hmax : ∀ m ∈ NegotiationService.collectNegotiations (accountTx address 200) nid,
      m ≠ n → m.lastTimestamp < n.lastTimestamp) :
    NegotiationService.getNegotiation accountTx nid pid = Except.ok (some n) := by
  have hhead := sortByKeyDesc_head_of_max Negotiation.lastTimestamp
    (NegotiationService.collectNegotiations (accountTx address 200) nid)
    n hmem hmax
  simp only [NegotiationService.getNegotiation, haddr]
  cases hs : sortByKeyDesc Negotiation.lastTimestamp
      (NegotiationService.collectNegotiations (accountTx address 200) nid) with
  | nil => rw [hs] at hhead; cases hhead
  | cons a t =>
    rw [hs] at hhead
    have : a = n := by
      have := hhead
      simp only [List.head?] at this
      exact Option.some.inj this
    rw [this]

/-- C7: when the kept log records of a scanned window are, in whatever
raw order the account-history query produced them, exactly three
entries with strictly increasing embedded timestamps t1 < t2 < t3,
getLogs returns them ordered [t3, t2, t1], re-sorted by each event's
own embedded timestamp, descending. -/
theorem getLogs_sorted_desc (now : Nat) (txs : List RawTx)
    (e1 e2 e3 : LogEntry)
    (hperm : List.Perm (XAG.collectLogs now txs) [e1, e2, e3])
    (h12 : e1.timestamp < e2.timestamp)
    (h23 : e2.timestamp < e3.timestamp) :
    XAG.getLogs now txs = [e3, e2, e1] := by
  unfold XAG.getLogs
  exact sortByKeyDesc_three (fun e => e.timestamp) _ e1 e2 e3 hperm h12 h23

/-- Memo object carrying one log envelope, used by witnesses. -/
def logMemoObj (ts : Nat) (msg : String) : MemoObj :=
  { MemoData :=
      some (MemoPayload.logJson
        { message := msg, level := "info", timestamp := some ts }) }

/-- Raw transaction carrying one log envelope, used by witnesses. -/
def logTx (ts : Nat) (msg : String) (h : String) : RawTx :=
  { tx := some { hash := some h, Memos := some [{ Memo := some (logMemoObj ts msg) }] } }

/-- Scanned window for the log witness: three log envelopes whose raw
order 100, 300, 200 differs from timestamp order. -/
def logsWindow : List RawTx :=
  [logTx 100 "first" "H1", logTx 300 "third" "H3", logTx 200 "second" "H2"]

/-- C7 witness: scanning the concrete window returns the three entries
ordered by timestamp 300, 200, 100 although the raw order was
100, 300, 200. -/
theorem getLogs_sorted_desc_witness :
    XAG.getLogs 999 logsWindow =
      [{ message := "third", level := "info", timestamp := 300, txHash := "H3" },
       { message := "second", level := "info", timestamp := 200, txHash := "H2" },
       { message := "first", level := "info", timestamp := 100, txHash := "H1" }] :=
  getLogs_sorted_desc 999 logsWindow
    { message := "first", level := "info", timestamp := 100, txHash := "H1" }
    { message := "second", level := "info", timestamp := 200, txHash := "H2" }
    { message := "third", level := "info", timestamp := 300, txHash := "H3" }
    (by decide) (by decide) (by decide)

/-- One-step negotiation history entry, used by witnesses. -/
def negStep1 (ts : Nat) (h : String) : NegotiationStep :=
  { step := 1, sender := "did:xrpl:1:rA", action := "offer", terms := "t",
    timestamp := ts, txHash := h }

/-- Negotiation snapshot with a one-step history, used by witnesses. -/
def negSnap (ts : Nat) (st : String) : Negotiation :=
  { negotiationId := "neg1",
    participants := ["did:xrpl:1:rA", "did:xrpl:1:rB"],
    status := st,
    currentOffer :=
      { sender := "did:xrpl:1:rA", receiver := "did:xrpl:1:rB",
        terms := "t", timestamp := ts },
    history := [negStep1 ts ""] }

/-- Memo object carrying one negotiation snapshot. -/
def negMemoObj (n : Negotiation) : MemoObj :=
  { MemoData := some (MemoPayload.negotiationJson n),
    MemoFormat := some "xag:negotiation" }

/-- Raw transaction broadcasting one negotiation snapshot. -/
def negTx (n : Negotiation) (h : String) : RawTx :=
  { tx := some { hash := some h, Memos := some [{ Memo := some (negMemoObj n) }] } }

/-- Scanned window for the negotiation witness: three snapshots of neg1
with timestamps in raw order 100, 300, 200. -/
def negWindow : List RawTx :=
  [negTx (negSnap 100 "initiated") "N1",
   negTx (negSnap 300 "accepted") "N3",
   negTx (negSnap 200 "counter-offer") "N2"]

/-- Snapshot the negotiation witness expects: the timestamp-300 snapshot
with the hash of its carrying transaction written into its last step. -/
def negExpected : Negotiation :=
  { negSnap 300 "accepted" with history := [negStep1 300 "N3"] }

/-- C6 witness: over the concrete window whose raw order is 100, 300,
200, getNegotiation returns the snapshot with the latest embedded
timestamp 300. -/
theorem getNegotiation_latest_snapshot_wins_witness :
    NegotiationService.getNegotiation (fun _ _ => negWindow) "neg1" "rA" =
      Except.ok (some negExpected) :=
  getNegotiation_latest_snapshot_wins (fun _ _ => negWindow) "neg1" "rA" "rA"
    negExpected (by rfl) (by decide) (by decide)

/-- C10: searchIntents returns the empty list whenever the criteria
carry no (truthy) agentDID, whatever the type and category filters are
and whatever intent envelopes the ledger history holds: the transaction
scan only runs under an agentDID criterion. -/
theorem searchIntents_requires_agentDID
    (accountTx : String → Nat → List RawTx) (criteria : IntentCriteria)
    (h : criteria.agentDID = none) :
    IntentService.searchIntents accountTx criteria = Except.ok [] := by
  simp [IntentService.searchIntents, h, jsTruthyStr, sortByKeyDesc]

/-- Intent envelope used by witnesses, with every field the broadcaster
writes. -/
def intentEnvelope : Intent :=
  { agentDID := some "did:xrpl:1:rA", type := some "offer",
    category := some "energy", description := some "solar surplus",
    timestamp := some 500, status := some "active" }

/-- Memo object carrying one intent envelope. -/
def intentMemoObj : MemoObj :=
  { MemoData := some (MemoPayload.intentJson intentEnvelope),
    MemoFormat := some "xag:intent" }

/-- Raw transaction carrying one intent envelope, used by witnesses. -/
def intentTx : RawTx :=
  { tx := some { hash := some "HI1", Memos := some [{ Memo := some intentMemoObj }] } }

/-- C10 witness: a history holding a matching intent envelope still
yields the empty result when no agentDID criterion is supplied. -/
theorem searchIntents_requires_agentDID_witness :
    IntentService.searchIntents (fun _ _ => [intentTx])
      { type := some "offer", category := some "energy" } = Except.ok [] :=
  searchIntents_requires_agentDID (fun _ _ => [intentTx])
    { type := some "offer", category := some "energy" } rfl

/-- Memo that every scan skips: the data field is absent, or its bytes
fail to decode (malformed), or they decode to foreign JSON and the memo
does not carry the xag:intent format tag. The last proviso is forced by
the source: under that tag searchIntents casts any well-formed JSON to
Intent without a shape check and keeps the record, so foreign JSON
masquerading under the intent tag of this application is not skipped
(the logs scan keeps nothing without truthy message and level fields,
and the negotiation scan rejects any JSON whose negotiationId does not
equal the queried id, so those two skip foreign JSON under any tag). -/
def memoUndecodable (m : RawMemo) : Prop :=
  memoDataOf m = none ∨ memoDataOf m = some MemoPayload.malformed ∨
    (memoDataOf m = some MemoPayload.otherJson ∧
      memoFormatOf m ≠ some "xag:intent")

/-- Every decoder skips an undecodable memo. -/
theorem decoders_skip_undecodable (m : RawMemo) (h : memoUndecodable m) :
    logEntryOfMemo m = none ∧ intentOfMemo m = none ∧
      negotiationOfMemo m = none := by
  refine ⟨?_, ?_, ?_⟩
  · rcases h with h | h | ⟨h, _⟩ <;> simp [logEntryOfMemo, h]
  · cases hmo : m.Memo with
    | none => simp [intentOfMemo, hmo]
    | some mo =>
      rcases h with h | h | ⟨hdata, hfmt⟩
      · rw [memoDataOf, hmo] at h
        simp only [Option.some_bind] at h
        simp [intentOfMemo, hmo, h]
      · rw [memoDataOf, hmo] at h
        simp only [Option.some_bind] at h
        simp [intentOfMemo, hmo, h, MemoPayload.asIntent]
      · rw [memoFormatOf, hmo] at hfmt
        simp only [Option.some_bind] at hfmt
        simp [intentOfMemo, hmo, hfmt]
  · cases hmo : m.Memo with
    | none => simp [negotiationOfMemo, hmo]
    | some mo =>
      have h' : mo.MemoData = none ∨ mo.MemoData = some MemoPayload.malformed ∨
          mo.MemoData = some MemoPayload.otherJson := by
        rcases h with h | h | ⟨h, _⟩ <;> rw [memoDataOf, hmo] at h <;>
          simp at h <;> simp [h]
      simp only [negotiationOfMemo, hmo]
      split
      · rcases h' with h' | h' | h' <;> simp [h']
      · rfl

/-- C8: a history record all of whose annotations are malformed or
foreign (absent data, undecodable bytes, or foreign JSON not
masquerading under the xag:intent tag of this application) never
surfaces an error from a scan: the logs, intents and negotiation
reductions each silently skip it, returning exactly what they return on
the history without it (the remaining successfully decoded records);
the scans themselves are total functions, so no decode failure is
fatal. -/
theorem history_scans_skip_undecodable (now : Nat) (l r : List RawTx)
    (t : RawTx) (crit : IntentCriteria) (nid pid : String)
    (hm : ∀ m ∈ t.txData.memosD, memoUndecodable m) :
    XAG.getLogs now (l ++ t :: r) = XAG.getLogs now (l ++ r) ∧
    IntentService.searchIntents (fun _ _ => l ++ t :: r) crit =
      IntentService.searchIntents (fun _ _ => l ++ r) crit ∧
    NegotiationService.getNegotiation (fun _ _ => l ++ t :: r) nid pid =
      NegotiationService.getNegotiation (fun _ _ => l ++ r) nid pid := by
  have hlogC : ∀ (g : LogData → LogEntry),
      (t.txData.memosD).filterMap (fun m => (logEntryOfMemo m).map g) = [] := by
    intro g
    rw [List.filterMap_eq_nil_iff]
    intro m hm'
    rw [(decoders_skip_undecodable m (hm m hm')).1]
    rfl
  have hintC : ∀ (g : Intent → Option Intent),
      (t.txData.memosD).filterMap (fun m =>
        match intentOfMemo m with
        | none => none
        | some i => g i) = [] := by
    intro g
    rw [List.filterMap_eq_nil_iff]
    intro m hm'
    rw [(decoders_skip_undecodable m (hm m hm')).2.1]
  have hnegC : ∀ (g : Negotiation → Option Negotiation),
      (t.txData.memosD).filterMap (fun m =>
        match negotiationOfMemo m with
        | none => none
        | some n => g n) = [] := by
    intro g
    rw [List.filterMap_eq_nil_iff]
    intro m hm'
    rw [(decoders_skip_undecodable m (hm m hm')).2.2]
  refine ⟨?_, ?_, ?_⟩
  · unfold XAG.getLogs
    congr 1
    simp only [XAG.collectLogs, List.flatMap_append, List.flatMap_cons]
    rw [hlogC]
    simp
  · by_cases hj : jsTruthyStr crit.agentDID
    · simp only [IntentService.searchIntents, if_pos hj]
      cases DIDManager.resolveDID (crit.agentDID.getD "") with
      | error e => rfl
      | ok address =>
        simp only [List.flatMap_append, List.flatMap_cons]
        rw [hintC]
        simp
    · simp only [IntentService.searchIntents, if_neg hj]
  · simp only [NegotiationService.getNegotiation]
    cases DIDManager.resolveDID pid with
    | error e => rfl
    | ok address =>
      have hcoll : NegotiationService.collectNegotiations (l ++ t :: r) nid =
          NegotiationService.collectNegotiations (l ++ r) nid := by
        simp only [NegotiationService.collectNegotiations, List.flatMap_append,
          List.flatMap_cons]
        rw [hnegC]
        simp
      rw [hcoll]

/-- Memo whose bytes fail to decode, carried under the intent format
tag: JSON.parse raises inside the scan and is caught. -/
def malformedMemo : RawMemo :=
  { Memo := some { MemoData := some MemoPayload.malformed, MemoFormat := some "xag:intent" } }

/-- Memo carrying well-formed JSON of a foreign application under a
foreign format tag. -/
def foreignMemo : RawMemo :=
  { Memo := some { MemoData := some MemoPayload.otherJson, MemoFormat := some "vendor:metrics" } }

/-- Raw transaction all of whose memos are malformed or foreign, used by
the C8 witness. -/
def undecodableTx : RawTx :=
  { tx := some { hash := some "HX", Memos := some [malformedMemo, foreignMemo] },
    hash := some "HX" }

/-- Decidability of the undecodable-memo predicate, for concrete
witnesses. -/
instance : DecidablePred memoUndecodable := fun m => by
  unfold memoUndecodable
  infer_instance

/-- C8 witness: inserting the undecodable record into the concrete log
window changes none of the three scans. -/
theorem history_scans_skip_undecodable_witness :
    XAG.getLogs 999 (logsWindow ++ undecodableTx :: []) =
      XAG.getLogs 999 (logsWindow ++ []) ∧
    IntentService.searchIntents (fun _ _ => logsWindow ++ undecodableTx :: [])
        { agentDID := some "rA" } =
      IntentService.searchIntents (fun _ _ => logsWindow ++ [])
        { agentDID := some "rA" } ∧
    NegotiationService.getNegotiation
        (fun _ _ => logsWindow ++ undecodableTx :: []) "neg1" "rA" =
      NegotiationService.getNegotiation (fun _ _ => logsWindow ++ [])
        "neg1" "rA" :=
  history_scans_skip_undecodable 999 logsWindow [] undecodableTx
    { agentDID := some "rA" } "neg1" "rA" (by decide)
